import Mathlib

/-
Shallow embedding of the Stylus ERC-20 token contract in `src/lib.rs`.

Modelling decisions, all taken from the source:
  * `U256` values are natural numbers; every addition the source performs
    with `+` on `alloy_primitives::U256` is taken modulo `2^256`, because
    `U256` (ruint) arithmetic wraps on overflow in release builds (the
    builds Stylus deploys) and the source performs no overflow check.
  * `Address` is a natural number; the zero address is `0`.
  * `assert!(cond, msg)` aborts the call, which the host turns into a
    revert; operations that can abort return `Except String`, carrying the
    assertion message, and an aborted operation yields no state and no
    events (the host discards them).
  * the two storage mappings (`balances`, nested `allowances`) are
    association lists with default value 0 for absent keys, so that the
    sum of all balances is an executable function.
  * `msg::sender()` is an explicit `caller` argument.
-/

namespace ERC20

/-- The number of values of `U256`: `2^256`. Wrapping additions are taken
modulo this constant. -/
def U256MOD : Nat := 2 ^ 256

/-- A 20-byte account identifier, modelled as a natural number. -/
abbrev Address := Nat

/-- `Address::ZERO`. -/
def ZERO : Address := 0

/-- Lookup in an association-list mapping; absent keys read as 0, as EVM
storage mappings do. -/
def lookupD {α : Type} [DecidableEq α] : List (α × Nat) → α → Nat
  | [], _ => 0
  | (k', v) :: rest, k => if k' = k then v else lookupD rest k

/-- Write a key in an association-list mapping (replace the first binding,
or append one). Models `.setter(k).set(v)` on a storage mapping. -/
def setM {α : Type} [DecidableEq α] : List (α × Nat) → α → Nat → List (α × Nat)
  | [], k, v => [(k, v)]
  | (k', v') :: rest, k, v =>
      if k' = k then (k, v) :: rest else (k', v') :: setM rest k v

/-- Sum of all values stored in a mapping. -/
def sumM {α : Type} (m : List (α × Nat)) : Nat := (m.map Prod.snd).sum

/-- The events the contract can emit, from the `sol!` block. -/
inductive Event where
  | Transfer (fromA toA : Address) (value : Nat)
  | Approval (owner spender : Address) (value : Nat)
deriving DecidableEq

/-- The contract storage, from the `sol_storage!` block. -/
structure ERC20Token where
  balances : List (Address × Nat)
  allowances : List ((Address × Address) × Nat)
  total_supply : Nat
  name : String
  symbol : String
  decimals : Nat
deriving DecidableEq

/-- A freshly deployed contract: every storage slot reads as zero. -/
def freshToken : ERC20Token :=
  { balances := [], allowances := [], total_supply := 0,
    name := "", symbol := "", decimals := 0 }

/-- `balance_of` from the source. -/
def balance_of (s : ERC20Token) (account : Address) : Nat :=
  lookupD s.balances account

/-- `allowance` from the source. -/
def allowance (s : ERC20Token) (owner spender : Address) : Nat :=
  lookupD s.allowances (owner, spender)

/-- `init` from the source: writes metadata, sets the total supply, credits
the caller, and emits `Transfer(0x0, caller, initial_supply)`. There is no
re-initialization guard. -/
def init (s : ERC20Token) (caller : Address) (name symbol : String)
    (decimals : Nat) (initial_supply : Nat) : ERC20Token × List Event :=
  ({ s with
      name := name, symbol := symbol, decimals := decimals,
      total_supply := initial_supply,
      balances := setM s.balances caller initial_supply },
   [Event.Transfer ZERO caller initial_supply])

/-- `_transfer` from the source: asserts `from_balance >= amount`, writes the
decremented source balance, then reads and writes the destination balance
(the read happens after the first write, which is what makes self-transfers
balance-preserving), and emits `Transfer(from, to, amount)`. The destination
addition wraps modulo `2^256`. -/
def _transfer (s : ERC20Token) (fromA toA : Address) (amount : Nat) :
    Except String (ERC20Token × List Event) :=
  let from_balance := lookupD s.balances fromA
  if amount ≤ from_balance then
    let new_from_balance := from_balance - amount
    let s1 := { s with balances := setM s.balances fromA new_from_balance }
    let to_balance := lookupD s1.balances toA
    let new_to_balance := (to_balance + amount) % U256MOD
    let s2 := { s1 with balances := setM s1.balances toA new_to_balance }
    Except.ok (s2, [Event.Transfer fromA toA amount])
  else
    Except.error "Insufficient balance"

/-- `transfer` from the source: `_transfer(msg::sender(), to, amount)` then
return `true`. -/
def transfer (s : ERC20Token) (caller toA : Address) (amount : Nat) :
    Except String (ERC20Token × List Event × Bool) :=
  match _transfer s caller toA amount with
  | Except.ok (s', evs) => Except.ok (s', evs, true)
  | Except.error e => Except.error e

/-- `approve` from the source: unconditionally writes the allowance, emits
`Approval(owner, spender, amount)`, returns `true`. -/
def approve (s : ERC20Token) (caller spender : Address) (amount : Nat) :
    ERC20Token × List Event × Bool :=
  ({ s with allowances := setM s.allowances (caller, spender) amount },
   [Event.Approval caller spender amount], true)

/-- `transfer_from` from the source: asserts the caller's allowance covers
`amount`, writes the decremented allowance, emits `Approval` with the new
allowance, then runs `_transfer(from, to, amount)` and returns `true`. -/
def transfer_from (s : ERC20Token) (caller fromA toA : Address) (amount : Nat) :
    Except String (ERC20Token × List Event × Bool) :=
  let current_allowance := lookupD s.allowances (fromA, caller)
  if amount ≤ current_allowance then
    let new_allowance := current_allowance - amount
    let s1 := { s with allowances := setM s.allowances (fromA, caller) new_allowance }
    match _transfer s1 fromA toA amount with
    | Except.ok (s2, evs) =>
        Except.ok (s2, Event.Approval fromA caller new_allowance :: evs, true)
    | Except.error e => Except.error e
  else
    Except.error "Insufficient allowance"

/-- `mint` from the source: adds `amount` to the total supply and to the
destination balance (both additions wrap modulo `2^256`, unchecked in the
source), emits `Transfer(0x0, to, amount)`, returns `true`. It can never
abort. -/
def mint (s : ERC20Token) (toA : Address) (amount : Nat) :
    ERC20Token × List Event × Bool :=
  let new_total_supply := (s.total_supply + amount) % U256MOD
  let s1 := { s with total_supply := new_total_supply }
  let current_balance := lookupD s1.balances toA
  let new_balance := (current_balance + amount) % U256MOD
  let s2 := { s1 with balances := setM s1.balances toA new_balance }
  (s2, [Event.Transfer ZERO toA amount], true)

/-- One external state-mutating call (after initialization), tagged with the
caller the host reports. -/
inductive Op where
  | transferOp (caller toA : Address) (amount : Nat)
  | approveOp (caller spender : Address) (amount : Nat)
  | transferFromOp (caller fromA toA : Address) (amount : Nat)
  | mintOp (caller toA : Address) (amount : Nat)
deriving DecidableEq

/-- Run one call, returning the new state and the emitted events, or the
abort message. -/
def runOp (s : ERC20Token) : Op → Except String (ERC20Token × List Event)
  | Op.transferOp caller toA amount =>
      match transfer s caller toA amount with
      | Except.ok (s', evs, _) => Except.ok (s', evs)
      | Except.error e => Except.error e
  | Op.approveOp caller spender amount =>
      match approve s caller spender amount with
      | (s', evs, _) => Except.ok (s', evs)
  | Op.transferFromOp caller fromA toA amount =>
      match transfer_from s caller fromA toA amount with
      | Except.ok (s', evs, _) => Except.ok (s', evs)
      | Except.error e => Except.error e
  | Op.mintOp _ toA amount =>
      match mint s toA amount with
      | (s', evs, _) => Except.ok (s', evs)

/-- Host semantics of one call: an aborted call is reverted, so it leaves the
state unchanged and emits no events (spec section 7). -/
def execOpE (s : ERC20Token) (op : Op) : ERC20Token × List Event :=
  match runOp s op with
  | Except.ok r => r
  | Except.error _ => (s, [])

/-- Host semantics of a sequence of calls, keeping only the final state. -/
def execOps (s : ERC20Token) (ops : List Op) : ERC20Token :=
  ops.foldl (fun t op => (execOpE t op).1) s

end ERC20

deriving instance DecidableEq for Except

namespace ERC20

/-- Reading a key just written returns the written value. -/
theorem lookupD_setM_self {α : Type} [DecidableEq α]
    (m : List (α × Nat)) (k : α) (v : Nat) :
    lookupD (setM m k v) k = v := by
  induction m with
  | nil => simp [setM, lookupD]
  | cons p rest ih =>
      obtain ⟨k', v'⟩ := p
      by_cases h : k' = k
      · simp [setM, h, lookupD]
      · simp [setM, h, lookupD, ih]

/-- Writing one key leaves every other key unchanged. -/
theorem lookupD_setM_ne {α : Type} [DecidableEq α]
    (m : List (α × Nat)) (k j : α) (v : Nat) (h : j ≠ k) :
    lookupD (setM m k v) j = lookupD m j := by
  have hk : ¬ k = j := fun he => h he.symm
  induction m with
  | nil => simp [setM, lookupD, hk]
  | cons p rest ih =>
      obtain ⟨k', v'⟩ := p
      by_cases hkk : k' = k
      · subst hkk
        simp [setM, lookupD, hk]
      · simp [setM, hkk, lookupD, ih]

/-- Effect of a write on the sum of all stored values. -/
theorem sumM_setM {α : Type} [DecidableEq α]
    (m : List (α × Nat)) (k : α) (v : Nat) :
    sumM (setM m k v) + lookupD m k = sumM m + v := by
  induction m with
  | nil => simp [setM, sumM, lookupD]
  | cons p rest ih =>
      obtain ⟨k', v'⟩ := p
      simp only [sumM, List.map_cons, List.sum_cons] at ih ⊢
      by_cases h : k' = k
      · simp only [setM, if_pos h, lookupD, List.map_cons, List.sum_cons]
        omega
      · simp only [setM, if_neg h, lookupD, List.map_cons, List.sum_cons]
        omega

/-- Every single stored value is bounded by the sum of all values. -/
theorem lookupD_le_sumM {α : Type} [DecidableEq α]
    (m : List (α × Nat)) (k : α) :
    lookupD m k ≤ sumM m := by
  induction m with
  | nil => simp [lookupD, sumM]
  | cons p rest ih =>
      obtain ⟨k', v'⟩ := p
      simp only [lookupD, sumM, List.map_cons, List.sum_cons] at ih ⊢
      by_cases h : k' = k
      · simp only [if_pos h]
        omega
      · simp only [if_neg h]
        omega

/-- Two values stored at distinct keys are jointly bounded by the sum. -/
theorem lookupD_pair_le_sumM {α : Type} [DecidableEq α]
    (m : List (α × Nat)) (k1 k2 : α) (h : k1 ≠ k2) :
    lookupD m k1 + lookupD m k2 ≤ sumM m := by
  induction m with
  | nil => simp [lookupD, sumM]
  | cons p rest ih =>
      obtain ⟨k', v'⟩ := p
      have h1 := lookupD_le_sumM rest k1
      have h2 := lookupD_le_sumM rest k2
      simp only [lookupD, sumM, List.map_cons, List.sum_cons] at ih h1 h2 ⊢
      by_cases e1 : k' = k1
      · have e2 : ¬ k' = k2 := fun he => h (e1.symm.trans he)
        simp only [if_pos e1, if_neg e2]
        omega
      · by_cases e2 : k' = k2
        · simp only [if_neg e1, if_pos e2]
          omega
        · simp only [if_neg e1, if_neg e2]
          omega

/-- Success characterization of the internal `_transfer` for states whose
balances sum to less than `2^256` (true of every ledger obeying supply
conservation): the balance check passes, the destination addition cannot
wrap, and the balances move as ERC-20 prescribes. -/
theorem _transfer_ok (s : ERC20Token) (fromA toA : Address) (amount : Nat)
    (hsum : sumM s.balances < U256MOD)
    (hb : amount ≤ balance_of s fromA) :
    ∃ s',
      _transfer s fromA toA amount =
        Except.ok (s', [Event.Transfer fromA toA amount]) ∧
      s'.allowances = s.allowances ∧
      s'.total_supply = s.total_supply ∧
      (fromA = toA → ∀ a, balance_of s' a = balance_of s a) ∧
      (fromA ≠ toA →
        balance_of s' fromA = balance_of s fromA - amount ∧
        balance_of s' toA = balance_of s toA + amount ∧
        (∀ a, a ≠ fromA → a ≠ toA → balance_of s' a = balance_of s a)) := by
  have hb' : amount ≤ lookupD s.balances fromA := hb
  have hfb : lookupD s.balances fromA ≤ sumM s.balances := lookupD_le_sumM _ _
  refine ⟨{ s with balances := (setM (setM s.balances fromA (lookupD s.balances fromA - amount)) toA ((lookupD (setM s.balances fromA (lookupD s.balances fromA - amount)) toA + amount) % U256MOD)) }, ?_, rfl, rfl, ?_, ?_⟩
  · simp only [_transfer]
    rw [if_pos hb']
  · intro he a
    subst he
    have h1 : lookupD (setM s.balances fromA (lookupD s.balances fromA - amount))
        fromA = lookupD s.balances fromA - amount := lookupD_setM_self _ _ _
    by_cases ha : a = fromA
    · subst ha
      simp only [balance_of, lookupD_setM_self, h1,
        Nat.sub_add_cancel hb', Nat.mod_eq_of_lt (lt_of_le_of_lt hfb hsum)]
    · simp only [balance_of, lookupD_setM_ne _ _ _ _ ha]
  · intro hne
    have hta : (toA : Address) ≠ fromA := fun he => hne he.symm
    have h1 : lookupD (setM s.balances fromA (lookupD s.balances fromA - amount))
        toA = lookupD s.balances toA := lookupD_setM_ne _ _ _ _ hta
    have hpair : lookupD s.balances toA + lookupD s.balances fromA
        ≤ sumM s.balances := lookupD_pair_le_sumM _ _ _ hta
    have hnow : (lookupD s.balances toA + amount) % U256MOD
        = lookupD s.balances toA + amount := Nat.mod_eq_of_lt (by omega)
    refine ⟨?_, ?_, ?_⟩
    · simp only [balance_of, lookupD_setM_ne _ _ _ _ hne, lookupD_setM_self]
    · simp only [balance_of, lookupD_setM_self, h1, hnow]
    · intro a haf hat
      simp only [balance_of, lookupD_setM_ne _ _ _ _ hat,
        lookupD_setM_ne _ _ _ _ haf]

/-- The internal `_transfer` aborts with the `"Insufficient balance"`
assertion message when the source balance is below `amount`. -/
theorem _transfer_insufficient (s : ERC20Token) (fromA toA : Address)
    (amount : Nat) (h : balance_of s fromA < amount) :
    _transfer s fromA toA amount = Except.error "Insufficient balance" := by
  have h' : ¬ amount ≤ lookupD s.balances fromA := by
    simp only [balance_of] at h
    omega
  simp only [_transfer]
  rw [if_neg h']

/-- A state used by several concrete witnesses: a fresh deployment
initialized by account 1 with supply 1000. -/
def W2s : ERC20Token := (init freshToken 1 "Tok" "TK" 18 1000).1

/-- Claim C2: `transfer(to, amount)` aborts with the `"Insufficient
balance"` assertion when the caller's balance is below `amount`; otherwise
it decrements the caller's balance by `amount`, increments the balance of
`to` by `amount` (a self-transfer nets to no change), emits
`Transfer(caller, to, amount)`, and returns `true`; an `Except.ok` result
always carries `true`, so `false` is never returned. Stated for ledgers
whose balances sum to less than `2^256`, as supply conservation
guarantees. -/
theorem transfer_correct (s : ERC20Token) (caller toA : Address) (amount : Nat)
    (hsum : sumM s.balances < U256MOD) :
    (balance_of s caller < amount →
      transfer s caller toA amount = Except.error "Insufficient balance") ∧
    (amount ≤ balance_of s caller →
      ∃ s', transfer s caller toA amount =
          Except.ok (s', [Event.Transfer caller toA amount], true) ∧
        (caller = toA → ∀ a, balance_of s' a = balance_of s a) ∧
        (caller ≠ toA →
          balance_of s' caller = balance_of s caller - amount ∧
          balance_of s' toA = balance_of s toA + amount ∧
          (∀ a, a ≠ caller → a ≠ toA → balance_of s' a = balance_of s a))) ∧
    (∀ r, transfer s caller toA amount = Except.ok r → r.2.2 = true) := by
  refine ⟨?_, ?_, ?_⟩
  · intro h
    simp only [transfer, _transfer_insufficient s caller toA amount h]
  · intro h
    obtain ⟨s', heq, _, _, hself, hdiff⟩ := _transfer_ok s caller toA amount hsum h
    exact ⟨s', by simp only [transfer, heq], hself, hdiff⟩
  · intro r hr
    cases he : _transfer s caller toA amount with
    | ok p =>
        obtain ⟨s', evs⟩ := p
        simp only [transfer, he] at hr
        injection hr with h
        subst h
        rfl
    | error e =>
        simp only [transfer, he] at hr
        exact Except.noConfusion hr

/-- Concrete instantiation of `transfer_correct`: account 1 holds 1000
tokens and transfers 300 to account 2. -/
theorem transfer_correct_witness :
    sumM W2s.balances < U256MOD ∧
    ((balance_of W2s 1 < 300 →
      transfer W2s 1 2 300 = Except.error "Insufficient balance") ∧
    (300 ≤ balance_of W2s 1 →
      ∃ s', transfer W2s 1 2 300 =
          Except.ok (s', [Event.Transfer 1 2 300], true) ∧
        ((1 : Address) = 2 → ∀ a, balance_of s' a = balance_of W2s a) ∧
        ((1 : Address) ≠ 2 →
          balance_of s' 1 = balance_of W2s 1 - 300 ∧
          balance_of s' 2 = balance_of W2s 2 + 300 ∧
          (∀ a, a ≠ 1 → a ≠ 2 → balance_of s' a = balance_of W2s a))) ∧
    (∀ r, transfer W2s 1 2 300 = Except.ok r → r.2.2 = true)) :=
  ⟨by decide, transfer_correct W2s 1 2 300 (by decide)⟩

/-- Success characterization of `transfer_from`, shared by several claims:
with sufficient allowance and balance, the allowance is decremented, the
`Approval` event with the new allowance precedes the `Transfer` event, and
the balances move as in `_transfer`. -/
theorem transfer_from_ok (s : ERC20Token) (caller fromA toA : Address)
    (amount : Nat) (hsum : sumM s.balances < U256MOD)
    (ha : amount ≤ allowance s fromA caller)
    (hb : amount ≤ balance_of s fromA) :
    ∃ s', transfer_from s caller fromA toA amount =
        Except.ok (s',
          [Event.Approval fromA caller (allowance s fromA caller - amount),
           Event.Transfer fromA toA amount], true) ∧
      allowance s' fromA caller = allowance s fromA caller - amount ∧
      s'.total_supply = s.total_supply ∧
      (fromA = toA → ∀ a, balance_of s' a = balance_of s a) ∧
      (fromA ≠ toA →
        balance_of s' fromA = balance_of s fromA - amount ∧
        balance_of s' toA = balance_of s toA + amount ∧
        (∀ a, a ≠ fromA → a ≠ toA → balance_of s' a = balance_of s a)) := by
  have ha' : amount ≤ lookupD s.allowances (fromA, caller) := ha
  obtain ⟨s', heq, hal, hts, hself, hdiff⟩ :=
    _transfer_ok { s with allowances := (setM s.allowances (fromA, caller) (lookupD s.allowances (fromA, caller) - amount)) } fromA toA amount hsum hb
  refine ⟨s', ?_, ?_, hts, hself, hdiff⟩
  · simp only [transfer_from]
    rw [if_pos ha', heq]
    rfl
  · simp only [allowance, hal, lookupD_setM_self]

/-- Claim C3: when the caller's allowance and the source balance both cover
`amount`, `transfer_from(from, to, amount)` decrements the allowance
`A[from, caller]` by `amount` (with no infinite-allowance shortcut: the
decrement applies to any allowance, `U256::MAX` included), emits
`Approval(from, caller, new allowance)` strictly before
`Transfer(from, to, amount)`, and moves `amount` from the balance of `from`
to the balance of `to`. -/
theorem transfer_from_correct (s : ERC20Token) (caller fromA toA : Address)
    (amount : Nat) (hsum : sumM s.balances < U256MOD)
    (ha : amount ≤ allowance s fromA caller)
    (hb : amount ≤ balance_of s fromA) :
    ∃ s', transfer_from s caller fromA toA amount =
        Except.ok (s',
          [Event.Approval fromA caller (allowance s fromA caller - amount),
           Event.Transfer fromA toA amount], true) ∧
      allowance s' fromA caller = allowance s fromA caller - amount ∧
      s'.total_supply = s.total_supply ∧
      (fromA = toA → ∀ a, balance_of s' a = balance_of s a) ∧
      (fromA ≠ toA →
        balance_of s' fromA = balance_of s fromA - amount ∧
        balance_of s' toA = balance_of s toA + amount ∧
        (∀ a, a ≠ fromA → a ≠ toA → balance_of s' a = balance_of s a)) :=
  transfer_from_ok s caller fromA toA amount hsum ha hb

/-- A witness state: after `W2s`, account 1 approves account 3 for
`U256::MAX`, the largest representable allowance. -/
def W3s : ERC20Token := (approve W2s 1 3 (U256MOD - 1)).1

/-- Concrete instantiation of `transfer_from_correct` at an allowance of
`U256::MAX`: account 3 spends 150 of account 1's tokens, and even the
maximal allowance is decremented (no infinite-allowance shortcut). -/
theorem transfer_from_correct_witness :
    sumM W3s.balances < U256MOD ∧ 150 ≤ allowance W3s 1 3 ∧
    150 ≤ balance_of W3s 1 ∧
    (∃ s', transfer_from W3s 3 1 2 150 =
        Except.ok (s',
          [Event.Approval 1 3 (allowance W3s 1 3 - 150),
           Event.Transfer 1 2 150], true) ∧
      allowance s' 1 3 = allowance W3s 1 3 - 150 ∧
      s'.total_supply = W3s.total_supply ∧
      ((1 : Address) = 2 → ∀ a, balance_of s' a = balance_of W3s a) ∧
      ((1 : Address) ≠ 2 →
        balance_of s' 1 = balance_of W3s 1 - 150 ∧
        balance_of s' 2 = balance_of W3s 2 + 150 ∧
        (∀ a, a ≠ 1 → a ≠ 2 → balance_of s' a = balance_of W3s a))) :=
  ⟨by decide, by decide, by decide,
    transfer_from_correct W3s 3 1 2 150 (by decide) (by decide) (by decide)⟩

/-- Claim C10: `transfer_from` applies the allowance check and decrement
even when the caller is `from` itself: spending one's own balance through
`transfer_from` requires a self-allowance `A[caller, caller] ≥ amount` and
decrements that self-allowance on success. -/
theorem transfer_from_self_allowance (s : ERC20Token) (caller toA : Address)
    (amount : Nat) (hsum : sumM s.balances < U256MOD) :
    (allowance s caller caller < amount →
      transfer_from s caller caller toA amount =
        Except.error "Insufficient allowance") ∧
    (amount ≤ allowance s caller caller → amount ≤ balance_of s caller →
      ∃ s' evs, transfer_from s caller caller toA amount =
          Except.ok (s', evs, true) ∧
        allowance s' caller caller = allowance s caller caller - amount) := by
  constructor
  · intro h
    have h' : ¬ amount ≤ lookupD s.allowances (caller, caller) := by
      simp only [allowance] at h
      omega
    simp only [transfer_from]
    rw [if_neg h']
  · intro ha hb
    obtain ⟨s', heq, hal, _, _, _⟩ := transfer_from_ok s caller caller toA
      amount hsum ha hb
    exact ⟨s', _, heq, hal⟩

/-- Concrete instantiation of `transfer_from_self_allowance`: account 1
holds 1000 tokens but no self-allowance, so `transfer_from(1, 2, 10)`
called by account 1 itself aborts with `"Insufficient allowance"`. -/
theorem transfer_from_self_allowance_witness :
    sumM W2s.balances < U256MOD ∧ allowance W2s 1 1 < 10 ∧
    ((allowance W2s 1 1 < 10 →
      transfer_from W2s 1 1 2 10 = Except.error "Insufficient allowance") ∧
    (10 ≤ allowance W2s 1 1 → 10 ≤ balance_of W2s 1 →
      ∃ s' evs, transfer_from W2s 1 1 2 10 = Except.ok (s', evs, true) ∧
        allowance s' 1 1 = allowance W2s 1 1 - 10)) :=
  ⟨by decide, by decide, transfer_from_self_allowance W2s 1 2 10 (by decide)⟩

/-- Claim C4: an aborted call is reverted by the host, so any operation that
fails — which includes `transfer_from` whose allowance check passes but
whose balance check then fails — leaves every balance, every allowance and
the total supply unchanged and emits no events; in particular the
allowance decrement and `Approval` emission of such a `transfer_from` are
discarded. -/
theorem failed_ops_revert (s : ERC20Token) (op : Op)
    (caller fromA toA : Address) (amount : Nat) :
    (∀ e, runOp s op = Except.error e → execOpE s op = (s, [])) ∧
    (amount ≤ allowance s fromA caller → balance_of s fromA < amount →
      transfer_from s caller fromA toA amount =
        Except.error "Insufficient balance" ∧
      execOpE s (Op.transferFromOp caller fromA toA amount) = (s, [])) := by
  constructor
  · intro e he
    simp only [execOpE, he]
  · intro ha hb
    have ha' : amount ≤ lookupD s.allowances (fromA, caller) := ha
    have herr : transfer_from s caller fromA toA amount =
        Except.error "Insufficient balance" := by
      have hft := _transfer_insufficient { s with allowances := (setM s.allowances (fromA, caller) (lookupD s.allowances (fromA, caller) - amount)) } fromA toA amount hb
      simp only [transfer_from]
      rw [if_pos ha', hft]
    exact ⟨herr, by simp only [execOpE, runOp, herr]⟩

/-- A witness state for the revert claim: account 1 approves account 3 for
5000 while holding only 1000 tokens. -/
def W4s : ERC20Token := (approve W2s 1 3 5000).1

/-- Concrete instantiation of `failed_ops_revert`: account 3 holds an
allowance of 5000 from account 1, whose balance is only 1000; the call
`transfer_from(1, 2, 5000)` passes the allowance check, aborts on the
balance check, and the already-written allowance decrement together with
its `Approval` event is reverted. -/
theorem failed_ops_revert_witness :
    5000 ≤ allowance W4s 1 3 ∧ balance_of W4s 1 < 5000 ∧
    ((∀ e, runOp W4s (Op.transferFromOp 3 1 2 5000) = Except.error e →
      execOpE W4s (Op.transferFromOp 3 1 2 5000) = (W4s, [])) ∧
    (5000 ≤ allowance W4s 1 3 → balance_of W4s 1 < 5000 →
      transfer_from W4s 3 1 2 5000 = Except.error "Insufficient balance" ∧
      execOpE W4s (Op.transferFromOp 3 1 2 5000) = (W4s, []))) :=
  ⟨by decide, by decide,
    failed_ops_revert W4s (Op.transferFromOp 3 1 2 5000) 3 1 2 5000⟩

/-- Claim C6: `approve(spender, amount)` unconditionally overwrites the
allowance `A[caller, spender]` with `amount` regardless of its prior value,
emits `Approval(caller, spender, amount)`, returns `true`, and a subsequent
`allowance(caller, spender)` reads back `amount`. -/
theorem approve_correct (s : ERC20Token) (caller spender : Address)
    (amount : Nat) :
    allowance (approve s caller spender amount).1 caller spender = amount ∧
    (approve s caller spender amount).2 =
      ([Event.Approval caller spender amount], true) := by
  refine ⟨?_, rfl⟩
  simp only [approve, allowance, lookupD_setM_self]

/-- The internal `_transfer` never touches the total supply. -/
theorem _transfer_total_supply (s : ERC20Token) (fromA toA : Address)
    (amount : Nat) (s' : ERC20Token) (evs : List Event)
    (h : _transfer s fromA toA amount = Except.ok (s', evs)) :
    s'.total_supply = s.total_supply := by
  simp only [_transfer] at h
  by_cases hb : amount ≤ lookupD s.balances fromA
  · rw [if_pos hb] at h
    injection h with h'
    injection h' with h1 h2
    subst h1
    rfl
  · rw [if_neg hb] at h
    exact Except.noConfusion h

/-- Claim C7: a successful `transfer` or `transfer_from` never changes the
total supply; `approve` does not either — among the write operations, only
`init` and `mint` mutate it. -/
theorem total_supply_frame (s : ERC20Token)
    (caller fromA toA spender : Address) (amount : Nat) :
    (∀ r, transfer s caller toA amount = Except.ok r →
      r.1.total_supply = s.total_supply) ∧
    (∀ r, transfer_from s caller fromA toA amount = Except.ok r →
      r.1.total_supply = s.total_supply) ∧
    (approve s caller spender amount).1.total_supply = s.total_supply := by
  refine ⟨?_, ?_, rfl⟩
  · intro r hr
    cases he : _transfer s caller toA amount with
    | ok p =>
        obtain ⟨s', evs⟩ := p
        have hts := _transfer_total_supply s caller toA amount s' evs he
        simp only [transfer, he] at hr
        injection hr with h
        subst h
        exact hts
    | error e =>
        simp only [transfer, he] at hr
        exact Except.noConfusion hr
  · intro r hr
    by_cases ha : amount ≤ lookupD s.allowances (fromA, caller)
    · cases he : _transfer { s with allowances := (setM s.allowances (fromA, caller) (lookupD s.allowances (fromA, caller) - amount)) } fromA toA amount with
      | ok p =>
          obtain ⟨s', evs⟩ := p
          have hts := _transfer_total_supply _ fromA toA amount s' evs he
          simp only [transfer_from] at hr
          rw [if_pos ha, he] at hr
          injection hr with h
          subst h
          exact hts
      | error e =>
          simp only [transfer_from] at hr
          rw [if_pos ha, he] at hr
          exact Except.noConfusion hr
    · simp only [transfer_from] at hr
      rw [if_neg ha] at hr
      exact Except.noConfusion hr

/-- Concrete instantiation of `total_supply_frame` on the initialized
ledger `W3s`. -/
theorem total_supply_frame_witness :
    (∀ r, transfer W3s 1 2 300 = Except.ok r →
      r.1.total_supply = W3s.total_supply) ∧
    (∀ r, transfer_from W3s 1 1 2 300 = Except.ok r →
      r.1.total_supply = W3s.total_supply) ∧
    (approve W3s 1 3 300).1.total_supply = W3s.total_supply :=
  total_supply_frame W3s 1 1 2 3 300

/-- Claim C8: a self-transfer `transfer(caller, amount)` with a sufficient
caller balance succeeds, emits `Transfer(caller, caller, amount)`, and
leaves the caller's balance — and every other balance — unchanged (the
decrement is written first and the increment re-reads the decremented
value). -/
theorem self_transfer_correct (s : ERC20Token) (caller : Address)
    (amount : Nat) (hcb : balance_of s caller < U256MOD)
    (hb : amount ≤ balance_of s caller) :
    ∃ s', transfer s caller caller amount =
        Except.ok (s', [Event.Transfer caller caller amount], true) ∧
      (∀ a, balance_of s' a = balance_of s a) := by
  have hb' : amount ≤ lookupD s.balances caller := hb
  have hcb' : lookupD s.balances caller < U256MOD := hcb
  refine ⟨{ s with balances := (setM (setM s.balances caller (lookupD s.balances caller - amount)) caller ((lookupD (setM s.balances caller (lookupD s.balances caller - amount)) caller + amount) % U256MOD)) }, ?_, ?_⟩
  · have he : _transfer s caller caller amount = Except.ok ({ s with balances := (setM (setM s.balances caller (lookupD s.balances caller - amount)) caller ((lookupD (setM s.balances caller (lookupD s.balances caller - amount)) caller + amount) % U256MOD)) }, [Event.Transfer caller caller amount]) := by
      simp only [_transfer]
      rw [if_pos hb']
    simp only [transfer, he]
  · intro a
    have h1 : lookupD (setM s.balances caller (lookupD s.balances caller - amount)) caller = lookupD s.balances caller - amount := lookupD_setM_self _ _ _
    by_cases ha : a = caller
    · subst ha
      simp only [balance_of, lookupD_setM_self, h1,
        Nat.sub_add_cancel hb', Nat.mod_eq_of_lt hcb']
    · simp only [balance_of, lookupD_setM_ne _ _ _ _ ha]

/-- Concrete instantiation of `self_transfer_correct`: account 1 holding
1000 tokens transfers 100 to itself; its balance stays 1000. -/
theorem self_transfer_correct_witness :
    balance_of W2s 1 < U256MOD ∧ 100 ≤ balance_of W2s 1 ∧
    (∃ s', transfer W2s 1 1 100 =
        Except.ok (s', [Event.Transfer 1 1 100], true) ∧
      (∀ a, balance_of s' a = balance_of W2s a)) :=
  ⟨by decide, by decide, self_transfer_correct W2s 1 100 (by decide) (by decide)⟩

/-- A ledger initialized with the whole `U256` range as supply: account 1
holds `U256::MAX = 2^256 - 1`, which is also the stored total supply. -/
def fullSupplyState : ERC20Token :=
  (init freshToken 1 "Tok" "TK" 18 (U256MOD - 1)).1

/-- A raw ledger state whose destination balance is at `U256::MAX`,
exercising the unchecked destination addition of `_transfer`. -/
def overfullState : ERC20Token :=
  { balances := [(1, 5), (2, U256MOD - 1)], allowances := [],
    total_supply := 4, name := "Tok", symbol := "TK", decimals := 18 }

/-- Claim C1 fails on the code as deployed: starting from
`init(_, _, _, U256::MAX)` on a fresh ledger and executing the single
operation `mint(2, 2)`, the balances sum to `2^256 + 1` while the stored
total supply has wrapped to 1, so the conservation invariant
`sum(balances) == total_supply` breaks — the additions in `mint` are
unchecked and wrap modulo `2^256`. -/
theorem conservation_breaks_on_mint_overflow :
    sumM (execOps fullSupplyState [Op.mintOp 1 2 2]).balances = U256MOD + 1 ∧
    (execOps fullSupplyState [Op.mintOp 1 2 2]).total_supply = 1 ∧
    sumM (execOps fullSupplyState [Op.mintOp 1 2 2]).balances ≠
      (execOps fullSupplyState [Op.mintOp 1 2 2]).total_supply := by
  refine ⟨by decide, by decide, by decide⟩

/-- Claim C5 fails on the code as deployed: with the total supply at
`U256::MAX`, `mint(2, 1)` does not fail with an overflow condition — it
returns `true` and wraps the stored total supply to 0; likewise a
`transfer` whose destination balance sits at `U256::MAX` succeeds (it
emits its `Transfer` event) and wraps the destination balance to 4 instead
of failing: both additions are unchecked in the source. -/
theorem mint_wraps_on_overflow :
    (mint fullSupplyState 2 1).2.2 = true ∧
    (mint fullSupplyState 2 1).1.total_supply = 0 ∧
    balance_of (mint fullSupplyState 2 1).1 2 = 1 ∧
    (execOpE overfullState (Op.transferOp 1 2 5)).2 = [Event.Transfer 1 2 5] ∧
    balance_of (execOpE overfullState (Op.transferOp 1 2 5)).1 2 = 4 := by
  refine ⟨rfl, by decide, by decide, by decide, by decide⟩

/-- The ledger after a double initialization: `init` by account 1 with
supply 100, a transfer of 30 to account 2, then a second `init` by
account 1 with supply 50 — nothing in the source prevents the second
call. -/
def reinitState : ERC20Token :=
  (init (execOps (init freshToken 1 "Tok" "TK" 18 100).1 [Op.transferOp 1 2 30]) 1 "Tok" "TK" 18 50).1

/-- Claim C9 as stated is false at a concrete input: `init` has no
re-initialization guard, so after `init(.., 100)` by account 1, a transfer
of 30 to account 2, and a second call `init(.., 50)` by account 1, account
2 — which is not the caller — still holds 30, while the claim requires
every non-caller balance to be 0 after any call to `init`. -/
theorem init_reinit_counterexample :
    balance_of reinitState 2 = 30 ∧ ¬ balance_of reinitState 2 = 0 := by
  refine ⟨by decide, by decide⟩

/-- Claim C9 (amended): after `init(name, symbol, decimals,
initial_supply)` on a freshly deployed ledger, the caller's balance and
the total supply both equal `initial_supply`, the event
`Transfer(0x0, caller, initial_supply)` is emitted, and every other
balance and every allowance is 0. (On an already-used ledger a second
`init`, which nothing prevents, leaves previously written balances and
allowances intact.) -/
theorem init_fresh_correct (caller : Address) (name symbol : String)
    (decimals initial_supply : Nat) :
    balance_of (init freshToken caller name symbol decimals initial_supply).1 caller = initial_supply ∧
    (init freshToken caller name symbol decimals initial_supply).1.total_supply = initial_supply ∧
    (init freshToken caller name symbol decimals initial_supply).2 = [Event.Transfer ZERO caller initial_supply] ∧
    (∀ a, a ≠ caller → balance_of (init freshToken caller name symbol decimals initial_supply).1 a = 0) ∧
    (∀ o sp, allowance (init freshToken caller name symbol decimals initial_supply).1 o sp = 0) := by
  refine ⟨?_, rfl, rfl, ?_, ?_⟩
  · simp only [init, balance_of, freshToken, lookupD_setM_self]
  · intro a ha
    have hne : ¬ (caller = a) := fun he => ha he.symm
    simp only [init, balance_of, freshToken, setM, lookupD, if_neg hne]
  · intro o sp
    rfl

/-- Concrete instantiation of `init_fresh_correct`: account 7 initializes
a fresh ledger with supply 55. -/
theorem init_fresh_correct_witness :
    balance_of (init freshToken 7 "Tok" "TK" 18 55).1 7 = 55 ∧
    (init freshToken 7 "Tok" "TK" 18 55).1.total_supply = 55 ∧
    (init freshToken 7 "Tok" "TK" 18 55).2 = [Event.Transfer ZERO 7 55] ∧
    (∀ a, a ≠ 7 → balance_of (init freshToken 7 "Tok" "TK" 18 55).1 a = 0) ∧
    (∀ o sp, allowance (init freshToken 7 "Tok" "TK" 18 55).1 o sp = 0) :=
  init_fresh_correct 7 "Tok" "TK" 18 55

end ERC20
